import Mathlib

/-!
Verification of the repository-index synchronizer and HTTP client of the
`pb` command-line tool, as a shallow embedding in Lean 4.

Source files embedded:
  * pkg/helm/helm.go — in particular `repoAdd` (the repository index
    synchronizer, called `SyncRepository` in the specification), and the
    control flow of `Apply`, `Upgrade`, `Uninstall` and `DeleteRelease`;
  * pkg/http/http.go — `DefaultClient`, `baseAPIURL`, `NewRequest`.

External effects (filesystem, advisory file lock, network download of the
remote index, the net/url and net/http standard-library calls) are modelled
by an explicit environment record whose fields give the outcome of each
external call; the Go control flow over those outcomes is translated
faithfully, branch by branch.
-/

set_option autoImplicit false

/-- Go's `time.Second`, in nanoseconds (the unit of `time.Duration`). -/
def timeSecond : Nat := 1000000000

/-- Go's `time.Minute`, in nanoseconds. -/
def timeMinute : Nat := 60 * timeSecond

namespace helm

/-- A Go `error` value, identified by its message string (the only part of
an error the embedded code observes or propagates). -/
structure GoErr where
  msg : String
deriving Repr, DecidableEq

/-- `repo.Entry` from the helm library: one repository entry of the index
file, `{Name, URL}` (the other fields are never set by this repository). -/
structure Entry where
  Name : String
  URL : String
deriving Repr, DecidableEq

/-- The `Helm` configuration struct of pkg/helm/helm.go. -/
structure Helm where
  ReleaseName : String
  Namespace : String
  Values : List String
  RepoName : String
  ChartName : String
  RepoURL : String
  Version : String
deriving Repr, DecidableEq

/-- The repository list of a `repo.File` (its `Repositories` field); the
other fields of `repo.File` play no role in `repoAdd`. -/
def File : Type := List Entry

/-- `repo.File.Get`: the first entry whose name matches, if any. -/
def File.Get (f : File) (name : String) : Option Entry :=
  match f with
  | [] => none
  | x :: xs => if x.Name = name then some x else File.Get xs name

/-- `repo.File.Has`: whether an entry with the given name exists
(the helm source implements it as `Get(name) != nil`). -/
def File.Has (f : File) (name : String) : Bool :=
  (File.Get f name).isSome

/-- `repo.File.Update` restricted to one entry (`repo.File.update`):
replace the first entry with the same name in place, or append. -/
def File.Update (f : File) (e : Entry) : File :=
  match f with
  | [] => [e]
  | x :: xs => if x.Name = e.Name then e :: xs else x :: File.Update xs e

/-- The observable content of the repository index file. -/
inductive Content
  /-- The file parses as a repository list. -/
  | wellFormed (entries : List Entry)
  /-- The file does not parse; `e` is the yaml unmarshal error. -/
  | malformed (e : GoErr)
deriving Repr, DecidableEq

/-- State of the repository index file on disk. -/
inductive FileState
  /-- The file does not exist (`os.ReadFile` fails with IsNotExist). -/
  | missing
  /-- The file exists with the given content. -/
  | present (c : Content)
deriving Repr, DecidableEq

/-- `yaml.Unmarshal` applied to the bytes read from the index file: a
missing file yields the zero-value (empty) repository list, well-formed
content yields its entries, malformed content yields the parse error. -/
def yamlUnmarshal : FileState → Except GoErr File
  | .missing => .ok []
  | .present (.wellFormed es) => .ok es
  | .present (.malformed e) => .error e

/-- Outcome of the `os.MkdirAll` call at the top of `repoAdd`. -/
inductive MkdirResult
  | ok
  /-- Failed with an error for which `os.IsExist` holds. -/
  | existErr (e : GoErr)
  /-- Failed with any other error. -/
  | otherErr (e : GoErr)
deriving Repr, DecidableEq

/-- Whether the mkdir outcome is a non-IsExist failure (the only one
`repoAdd` treats as fatal). -/
def MkdirResult.isOtherErr : MkdirResult → Bool
  | .otherErr _ => true
  | _ => false

/-- Outcome of `fileLock.TryLockContext`: the `(locked, err)` pair. -/
structure LockResult where
  locked : Bool
  err : Option GoErr
deriving Repr, DecidableEq

/-- Outcomes of the external calls made by one `repoAdd` invocation.
`download` gives the result of `DownloadIndexFile` for the chart
repository constructed for a given URL (`none` means success); the other
fields give the single outcome of the corresponding call. -/
structure Env where
  mkdir : MkdirResult
  lock : LockResult
  /-- A read failure for which `os.IsNotExist` does not hold, if any
  (an IsNotExist failure is the `FileState.missing` case instead). -/
  readErr : Option GoErr
  /-- Error of `repo.NewChartRepository`, if any. -/
  newRepoErr : Option GoErr
  download : String → Option GoErr
  /-- Error of `repo.File.WriteFile`, if any. -/
  writeErr : Option GoErr
  /-- Content left on disk when `WriteFile` fails part-way. -/
  writeFailState : FileState

/-- The error value returned by `repoAdd`, by return site. -/
inductive RepoAddError
  | mkdirFail (e : GoErr)
  | lockFail (e : GoErr)
  | readFail (e : GoErr)
  | parseFail (e : GoErr)
  | chartRepoFail (e : GoErr)
  /-- `errors.Wrapf(err, "looks like we are unable to update helm repo %q", url)` -/
  | updateFail (url : String) (e : GoErr)
  /-- `errors.Wrapf(err, "looks like %q is not a valid chart repository or cannot be reached", url)` -/
  | unreachableFail (url : String) (e : GoErr)
  | writeFail (e : GoErr)
deriving Repr, DecidableEq

/-- Go `%q` formatting of a string (escaping of quote and backslash
characters inside the string is elided; URLs contain neither). -/
def goQuote (s : String) : String :=
  "\"" ++ s ++ "\""

/-- The `Error()` message of the error returned by `repoAdd`: for the two
wrapped download failures, `errors.Wrapf` produces the formatted message
followed by a colon, a space and the underlying error's message; the other
errors are returned unwrapped. -/
def RepoAddError.message : RepoAddError → String
  | .mkdirFail e => e.msg
  | .lockFail e => e.msg
  | .readFail e => e.msg
  | .parseFail e => e.msg
  | .chartRepoFail e => e.msg
  | .updateFail url e =>
      "looks like we are unable to update helm repo " ++ goQuote url ++ ": " ++ e.msg
  | .unreachableFail url e =>
      "looks like " ++ goQuote url ++ " is not a valid chart repository or cannot be reached: " ++ e.msg
  | .writeFail e => e.msg

deriving instance DecidableEq for Except

/-- Result of one `repoAdd` invocation: the returned value, the index
file state on exit, and whether the deferred `fileLock.Unlock` ran. -/
structure SyncOutcome where
  result : Except RepoAddError Unit
  file : FileState
  lockReleased : Bool
deriving Repr, DecidableEq

/-- The branch of `repoAdd` taken when the name is already in the index
(helm.go lines 188-200): build the chart repository for the new URL,
download its index to confirm reachability, and return without touching
the file. -/
def syncExisting (env : Env) (st : FileState) (h : Helm) (rel : Bool) : SyncOutcome :=
  match env.newRepoErr with
  | some e => ⟨.error (.chartRepoFail e), st, rel⟩
  | none =>
    match env.download h.RepoURL with
    | some e => ⟨.error (.updateFail h.RepoURL e), st, rel⟩
    | none => ⟨.ok (), st, rel⟩

/-- The branch of `repoAdd` taken when the name is not yet in the index
(helm.go lines 201-220): build the chart repository, download its index,
update the in-memory file with the new entry and rewrite it on disk. -/
def syncNew (env : Env) (st : FileState) (h : Helm) (f : File) (rel : Bool) : SyncOutcome :=
  match env.newRepoErr with
  | some e => ⟨.error (.chartRepoFail e), st, rel⟩
  | none =>
    match env.download h.RepoURL with
    | some e => ⟨.error (.unreachableFail h.RepoURL e), st, rel⟩
    | none =>
      match env.writeErr with
      | some e => ⟨.error (.writeFail e), env.writeFailState, rel⟩
      | none => ⟨.ok (), .present (.wellFormed (File.Update f ⟨h.RepoName, h.RepoURL⟩)), rel⟩

/-- The `f.Has(h.RepoName)` branch point of `repoAdd` (helm.go line 188),
on the parsed repository list `f`. -/
def syncParsed (env : Env) (st : FileState) (h : Helm) (f : File) (rel : Bool) : SyncOutcome :=
  if File.Has f h.RepoName then syncExisting env st h rel else syncNew env st h f rel

/-- The read-modify-write sequence of `repoAdd` (everything after the lock
acquisition block, helm.go lines 169-220). `st` is the index file state,
`rel` records whether the deferred unlock was registered. -/
def syncBody (env : Env) (st : FileState) (h : Helm) (rel : Bool) : SyncOutcome :=
  match env.readErr with
  | some e => ⟨.error (.readFail e), st, rel⟩
  | none =>
    match yamlUnmarshal st with
    | .error e => ⟨.error (.parseFail e), st, rel⟩
    | .ok f => syncParsed env st h f rel

/-- `repoAdd` (helm.go lines 142-221), the repository index synchronizer
(`SyncRepository` in the specification): ensure the directory exists, try
to take the advisory lock (registering the deferred unlock only when the
call returned no error and the lock was obtained), return a lock error if
any, then run the read-modify-write sequence. -/
def repoAdd (env : Env) (st : FileState) (h : Helm) : SyncOutcome :=
  match env.mkdir with
  | .otherErr e => ⟨.error (.mkdirFail e), st, false⟩
  | _ =>
    let rel := env.lock.err.isNone && env.lock.locked
    match env.lock.err with
    | some e => ⟨.error (.lockFail e), st, rel⟩
    | none => syncBody env st h rel

/-- Outcomes of the external calls made by `Apply` or `Upgrade`, besides
the synchronizer's own environment: configuration init, chart location,
chart loading, value merging and the install/upgrade action run. -/
structure ActionEnv where
  initErr : Option GoErr
  sync : Env
  locateErr : Option GoErr
  loadErr : Option GoErr
  mergeErr : Option GoErr
  runErr : Option GoErr

/-- Result of one `Apply` or `Upgrade` invocation: the returned error, if
any, and the repository index file state on exit. -/
structure ActionOutcome where
  result : Except GoErr Unit
  file : FileState
deriving Repr, DecidableEq

/-- `Apply` (helm.go lines 65-138): initialize the action configuration
(wrapping an init failure with a fixed prefix), call `repoAdd` with its
return value discarded (line 97), then locate, load, merge values and run,
returning the first error among those. -/
def Apply (env : ActionEnv) (st : FileState) (h : Helm) : ActionOutcome :=
  match env.initErr with
  | some e => ⟨.error ⟨"failed to initialize Helm configuration: " ++ e.msg⟩, st⟩
  | none =>
    let st1 := (repoAdd env.sync st h).file
    match env.locateErr with
    | some e => ⟨.error e, st1⟩
    | none =>
      match env.loadErr with
      | some e => ⟨.error e, st1⟩
      | none =>
        match env.mergeErr with
        | some e => ⟨.error e, st1⟩
        | none =>
          match env.runErr with
          | some e => ⟨.error e, st1⟩
          | none => ⟨.ok (), st1⟩

/-- `Upgrade` (helm.go lines 301-356): same control flow as `Apply` with
an unwrapped init failure; `repoAdd` is called at line 316 with its return
value discarded. -/
def Upgrade (env : ActionEnv) (st : FileState) (h : Helm) : ActionOutcome :=
  match env.initErr with
  | some e => ⟨.error e, st⟩
  | none =>
    let st1 := (repoAdd env.sync st h).file
    match env.locateErr with
    | some e => ⟨.error e, st1⟩
    | none =>
      match env.loadErr with
      | some e => ⟨.error e, st1⟩
      | none =>
        match env.mergeErr with
        | some e => ⟨.error e, st1⟩
        | none =>
          match env.runErr with
          | some e => ⟨.error e, st1⟩
          | none => ⟨.ok (), st1⟩

/-- The fields of the helm library's `action.Uninstall` that this
repository ever configures; `action.NewUninstall` leaves both at their Go
zero values. `Timeout` is a `time.Duration` in nanoseconds. -/
structure UninstallAction where
  Wait : Bool
  Timeout : Nat
deriving Repr, DecidableEq

/-- `action.NewUninstall`: the uninstall action with zero-valued
configuration fields. -/
def newUninstall : UninstallAction :=
  { Wait := false, Timeout := 0 }

/-- The uninstall action as configured by `Uninstall` (helm.go lines
384-392): `client.Wait = true` and `client.Timeout = 5 * time.Minute`. -/
def uninstallClient : UninstallAction :=
  { newUninstall with Wait := true, Timeout := 5 * timeMinute }

/-- The uninstall action as configured by `DeleteRelease` (helm.go lines
292-294): `action.NewUninstall` followed directly by `Run`, with no
configuration field assigned. -/
def deleteReleaseClient : UninstallAction :=
  newUninstall

end helm

namespace cmd

open helm (GoErr)

/-- The fields of `config.Profile` used by pkg/http/http.go. -/
structure Profile where
  URL : String
  Username : String
  Password : String
deriving Repr, DecidableEq

/-- `HTTPClient` from pkg/http/http.go: the embedded `http.Client` is
represented by the one field this code sets, its overall request timeout
(a `time.Duration` in nanoseconds). -/
structure HTTPClient where
  ClientTimeout : Nat
  Profile : Profile
deriving Repr, DecidableEq

/-- `DefaultClient`: an `HTTPClient` whose `http.Client` has
`Timeout: 60 * time.Second`, holding the given profile. -/
def DefaultClient (profile : Profile) : HTTPClient :=
  { ClientTimeout := 60 * timeSecond, Profile := profile }

/-- The behaviour of the standard library's `url.JoinPath`, supplied as an
abstract environment function: either the joined URL or an error (Go
returns the empty string alongside an error). -/
def JoinPathFn : Type := String → List String → Except GoErr String

/-- An `http.Request` as far as pkg/http/http.go configures one. -/
structure Request where
  method : String
  url : String
  body : Option String
  basicAuth : Option (String × String)
  headers : List (String × String)
deriving Repr, DecidableEq

/-- The behaviour of the standard library's `http.NewRequest` on a method
and URL string: `mkErr` says whether construction fails; on success the
request starts with the given method, URL and body, no authorization and
no headers. -/
def httpNewRequest (mkErr : String → String → Option GoErr)
    (method u : String) (body : Option String) : Except GoErr Request :=
  match mkErr method u with
  | some e => .error e
  | none => .ok { method := method, url := u, body := body, basicAuth := none, headers := [] }

/-- `http.Request.SetBasicAuth`. -/
def setBasicAuth (r : Request) (user pass : String) : Request :=
  { r with basicAuth := some (user, pass) }

/-- `http.Header.Add`. -/
def headerAdd (r : Request) (k v : String) : Request :=
  { r with headers := r.headers ++ [(k, v)] }

/-- `baseAPIURL` (http.go lines 41-44): join the profile URL, the fixed
prefix "api/v1/" and the path, discarding the error; on a join failure the
named return `x` keeps the empty string `url.JoinPath` returned. -/
def baseAPIURL (joinPath : JoinPathFn) (client : HTTPClient) (path : String) : String :=
  match joinPath client.Profile.URL ["api/v1/", path] with
  | .ok x => x
  | .error _ => ""

/-- `NewRequest` (http.go lines 46-54): build the request against
`baseAPIURL`, return a construction error as is, otherwise set basic auth
from the profile and add the JSON content-type header. -/
def NewRequest (joinPath : JoinPathFn) (mkErr : String → String → Option GoErr)
    (client : HTTPClient) (method path : String) (body : Option String) :
    Except GoErr Request :=
  match httpNewRequest mkErr method (baseAPIURL joinPath client path) body with
  | .error e => .error e
  | .ok req =>
      .ok (headerAdd (setBasicAuth req client.Profile.Username client.Profile.Password)
        "Content-Type" "application/json")

/-- A concrete profile, for concrete instantiations. -/
def cProfile : Profile :=
  { URL := "http://localhost:8000", Username := "admin", Password := "admin" }

/-- A concrete join-path outcome function: joining always succeeds with
the URL that url.JoinPath would produce for the profile above. -/
def cJoinPath : JoinPathFn :=
  fun _ _ => .ok "http://localhost:8000/api/v1/health"

/-- A concrete error for a failing url.JoinPath call. -/
def cErrJoin : GoErr := ⟨"parse \":bad\": missing protocol scheme"⟩

/-- A concrete join-path outcome function that always fails. -/
def cJoinPathFail : JoinPathFn := fun _ _ => .error cErrJoin

/-- A concrete http.NewRequest outcome: construction always succeeds. -/
def cMkErr : String → String → Option GoErr := fun _ _ => none

end cmd

namespace helm

/-- A concrete transport error, for concrete instantiations. -/
def cErr : GoErr := ⟨"dial tcp: connection refused"⟩

/-- A concrete filesystem error, for concrete instantiations. -/
def cErr2 : GoErr := ⟨"permission denied"⟩

/-- A concrete Helm configuration. -/
def cHelm : Helm :=
  { ReleaseName := "parseable", Namespace := "parseable", Values := [],
    RepoName := "parseable", ChartName := "parseable",
    RepoURL := "https://charts.parseable.com", Version := "1.0.0" }

/-- An environment in which every external call succeeds. -/
def okEnv : Env :=
  { mkdir := .ok, lock := { locked := true, err := none }, readErr := none,
    newRepoErr := none, download := fun _ => none, writeErr := none,
    writeFailState := .missing }

/-- `okEnv` with the remote index download failing for every URL. -/
def downFailEnv : Env := { okEnv with download := fun _ => some cErr }

/-- `okEnv` with a non-IsNotExist read failure. -/
def readFailEnv : Env := { okEnv with readErr := some cErr2 }

/-- `okEnv` with a hard lock acquisition error. -/
def lockFailEnv : Env := { okEnv with lock := { locked := false, err := some cErr2 } }

/-- A concrete pre-existing index holding one entry named "parseable"
with a URL different from the one in `cHelm`. -/
def cSt : FileState := .present (.wellFormed [⟨"parseable", "https://old.example.com"⟩])

/-- An action environment whose repository synchronizer fails (remote
index download unreachable) while every other step succeeds. -/
def cActionEnv : ActionEnv :=
  { initErr := none, sync := downFailEnv, locateErr := none, loadErr := none,
    mergeErr := none, runErr := none }

/-- Updating twice with the same entry is the same as updating once. -/
theorem File.Update_Update_self (f : File) (e : Entry) :
    File.Update (File.Update f e) e = File.Update f e := by
  induction f with
  | nil => simp [File.Update]
  | cons x xs ih =>
    by_cases hx : x.Name = e.Name
    · simp [File.Update, hx]
    · simp [File.Update, hx, ih]

/-- The existing-name branch never touches the deferred-unlock flag. -/
theorem syncExisting_lockReleased (env : Env) (st : FileState) (h : Helm) (rel : Bool) :
    (syncExisting env st h rel).lockReleased = rel := by
  unfold syncExisting
  rcases env.newRepoErr with _ | e
  · rcases env.download h.RepoURL with _ | e <;> rfl
  · rfl

/-- The new-name branch never touches the deferred-unlock flag. -/
theorem syncNew_lockReleased (env : Env) (st : FileState) (h : Helm) (f : File) (rel : Bool) :
    (syncNew env st h f rel).lockReleased = rel := by
  unfold syncNew
  rcases env.newRepoErr with _ | e
  · rcases env.download h.RepoURL with _ | e
    · rcases env.writeErr with _ | e <;> rfl
    · rfl
  · rfl

/-- The read-modify-write sequence never touches the deferred-unlock flag. -/
theorem syncBody_lockReleased (env : Env) (st : FileState) (h : Helm) (rel : Bool) :
    (syncBody env st h rel).lockReleased = rel := by
  unfold syncBody syncParsed
  rcases env.readErr with _ | e
  · rcases yamlUnmarshal st with e | f
    · rfl
    · cases hf : File.Has f h.RepoName
      · simp only [hf, Bool.false_eq_true, if_false]
        exact syncNew_lockReleased env st h f rel
      · simp only [hf, if_true]
        exact syncExisting_lockReleased env st h rel
  · rfl

/-- When the directory step does not fail hard and the lock call returns
no error, `repoAdd` is exactly the read-modify-write sequence, with the
deferred unlock registered exactly when the lock was obtained. -/
theorem repoAdd_eq_syncBody (env : Env) (st : FileState) (h : Helm)
    (hmk : env.mkdir.isOtherErr = false) (hlk : env.lock.err = none) :
    repoAdd env st h = syncBody env st h env.lock.locked := by
  unfold repoAdd
  rcases hm : env.mkdir with _ | e | e
  · simp [hlk]
  · simp [hlk]
  · rw [hm] at hmk; simp [MkdirResult.isOtherErr] at hmk

/-- The index file state after `repoAdd` is: unchanged; or the residue of
a failed write; or, when the write succeeded, the parsed previous index
updated with the new entry. -/
theorem repoAdd_file_cases (env : Env) (st : FileState) (h : Helm) :
    (repoAdd env st h).file = st ∨
    (env.writeErr ≠ none ∧ (repoAdd env st h).file = env.writeFailState) ∨
    (env.writeErr = none ∧ ∃ f, yamlUnmarshal st = .ok f ∧
      (repoAdd env st h).file = .present (.wellFormed (File.Update f ⟨h.RepoName, h.RepoURL⟩))) := by
  unfold repoAdd syncBody syncParsed syncExisting syncNew
  rcases hm : env.mkdir with _ | e1 | e1
  all_goals rcases hl : env.lock.err with _ | e2
  all_goals rcases hr : env.readErr with _ | e3
  all_goals try exact Or.inl rfl
  all_goals rcases hy : yamlUnmarshal st with e4 | f
  all_goals try exact Or.inl rfl
  all_goals cases hf : File.Has f h.RepoName
  all_goals simp only [hf, Bool.false_eq_true, if_false, if_true]
  all_goals rcases hn : env.newRepoErr with _ | e5
  all_goals try exact Or.inl rfl
  all_goals rcases hd : env.download h.RepoURL with _ | e6
  all_goals try exact Or.inl rfl
  all_goals rcases hw : env.writeErr with _ | e7
  all_goals first
  | exact Or.inl rfl
  | exact Or.inr (Or.inr ⟨rfl, f, rfl, rfl⟩)
  | exact Or.inr (Or.inl ⟨by simp, rfl⟩)

/-- Claim C1: if the repository index already contains an entry whose name
equals the entry being synced and the remote index download for the new
URL succeeds, repoAdd returns success without modifying the index file,
so the stored entry for that name keeps the previously stored URL — for
every pre-existing index and every new URL. -/
theorem repoAdd_existing_name_keeps_entry (env : Env) (st : FileState) (h : Helm) (f : File)
    (hmk : env.mkdir.isOtherErr = false)
    (hlk : env.lock.err = none)
    (hrd : env.readErr = none)
    (hpa : yamlUnmarshal st = .ok f)
    (hhas : File.Has f h.RepoName = true)
    (hnr : env.newRepoErr = none)
    (hdl : env.download h.RepoURL = none) :
    (repoAdd env st h).result = .ok () ∧ (repoAdd env st h).file = st ∧
      ∀ g, yamlUnmarshal (repoAdd env st h).file = .ok g →
        File.Get g h.RepoName = File.Get f h.RepoName := by
  have key : repoAdd env st h = ⟨.ok (), st, env.lock.locked⟩ := by
    rw [repoAdd_eq_syncBody env st h hmk hlk]
    unfold syncBody syncParsed syncExisting
    rw [hrd, hpa]
    simp [hhas, hnr, hdl]
  refine ⟨by rw [key], by rw [key], ?_⟩
  intro g hg
  rw [key] at hg
  rw [hpa] at hg
  injection hg with h2
  rw [h2]

/-- Concrete instantiation of the claim-C1 theorem: syncing the name
"parseable" with a new URL over an index that already stores that name
under an older URL succeeds and leaves the file unchanged. -/
theorem repoAdd_existing_name_keeps_entry_witness :
    (repoAdd okEnv cSt cHelm).result = .ok () ∧ (repoAdd okEnv cSt cHelm).file = cSt ∧
      ∀ g, yamlUnmarshal (repoAdd okEnv cSt cHelm).file = .ok g →
        File.Get g cHelm.RepoName =
          File.Get [⟨"parseable", "https://old.example.com"⟩] cHelm.RepoName :=
  repoAdd_existing_name_keeps_entry okEnv cSt cHelm
    [⟨"parseable", "https://old.example.com"⟩] rfl rfl rfl rfl rfl rfl rfl

/-- Claim C2: if the entry name is not yet present in the parsed index and
the remote index download fails, repoAdd returns an error and the index
file is left unmodified (the new entry is never partially added), for
every starting index state and environment. -/
theorem repoAdd_new_name_download_fail (env : Env) (st : FileState) (h : Helm)
    (f : File) (e : GoErr)
    (hpa : yamlUnmarshal st = .ok f)
    (hhas : File.Has f h.RepoName = false)
    (hdl : env.download h.RepoURL = some e) :
    (∃ err, (repoAdd env st h).result = .error err) ∧ (repoAdd env st h).file = st := by
  unfold repoAdd syncBody syncParsed syncExisting syncNew
  rcases hm : env.mkdir with _ | e1 | e1
  all_goals rcases hl : env.lock.err with _ | e2
  all_goals rcases hr : env.readErr with _ | e3
  all_goals try exact ⟨⟨_, rfl⟩, rfl⟩
  all_goals rw [hpa]
  all_goals simp only [hhas, Bool.false_eq_true, if_false]
  all_goals rcases hn : env.newRepoErr with _ | e5
  all_goals try exact ⟨⟨_, rfl⟩, rfl⟩
  all_goals rw [hdl]
  all_goals exact ⟨⟨_, rfl⟩, rfl⟩

/-- Concrete instantiation of the claim-C2 theorem: a brand-new name with
an unreachable remote leaves a missing index file missing and errors. -/
theorem repoAdd_new_name_download_fail_witness :
    (∃ err, (repoAdd downFailEnv .missing cHelm).result = .error err) ∧
      (repoAdd downFailEnv .missing cHelm).file = .missing :=
  repoAdd_new_name_download_fail downFailEnv .missing cHelm [] cErr rfl rfl rfl

/-- Claim C3: SyncRepository (repoAdd) is idempotent: for every entry,
index state and environment, running it twice in a row leaves the index
file content after the second call equal to the content after the first
call — no duplicate entries and no URL churn. -/
theorem repoAdd_idempotent (env : Env) (st : FileState) (h : Helm) :
    (repoAdd env (repoAdd env st h).file h).file = (repoAdd env st h).file := by
  rcases repoAdd_file_cases env st h with h1 | ⟨hw, h1⟩ | ⟨hw, f, hy, h1⟩
  · rw [h1]; exact h1
  · rw [h1]
    rcases repoAdd_file_cases env env.writeFailState h with g1 | ⟨_, g1⟩ | ⟨gw, _, _, g1⟩
    · exact g1
    · exact g1
    · exact absurd gw hw
  · rw [h1]
    rcases repoAdd_file_cases env
        (.present (.wellFormed (File.Update f ⟨h.RepoName, h.RepoURL⟩))) h with
      g1 | ⟨gw, g1⟩ | ⟨_, f2, gy, g1⟩
    · exact g1
    · exact absurd hw gw
    · simp only [yamlUnmarshal, Except.ok.injEq] at gy
      rw [g1, ← gy, File.Update_Update_self]

/-- Claim C4: a missing index file is treated as an empty index rather
than an error: with a reachable remote and no other failing call, repoAdd
on a missing file succeeds and writes a new index containing exactly the
one added entry; and any read failure other than file-not-exist aborts
the sync with an error, leaving the file untouched. -/
theorem repoAdd_missing_file_tolerance :
    (∀ env : Env, ∀ h : Helm,
      env.mkdir.isOtherErr = false → env.lock.err = none → env.readErr = none →
      env.newRepoErr = none → env.download h.RepoURL = none → env.writeErr = none →
        (repoAdd env .missing h).result = .ok () ∧
        (repoAdd env .missing h).file = .present (.wellFormed [⟨h.RepoName, h.RepoURL⟩])) ∧
    (∀ env : Env, ∀ st : FileState, ∀ h : Helm, ∀ e : GoErr,
      env.mkdir.isOtherErr = false → env.lock.err = none → env.readErr = some e →
        (repoAdd env st h).result = .error (.readFail e) ∧ (repoAdd env st h).file = st) := by
  constructor
  · intro env h hmk hlk hrd hnr hdl hwr
    have key : repoAdd env .missing h =
        ⟨.ok (), .present (.wellFormed [⟨h.RepoName, h.RepoURL⟩]), env.lock.locked⟩ := by
      rw [repoAdd_eq_syncBody env .missing h hmk hlk]
      unfold syncBody syncParsed syncNew
      rw [hrd]
      simp [yamlUnmarshal, File.Has, File.Get, File.Update, hnr, hdl, hwr]
    exact ⟨by rw [key], by rw [key]⟩
  · intro env st h e hmk hlk hrd
    have key : repoAdd env st h = ⟨.error (.readFail e), st, env.lock.locked⟩ := by
      rw [repoAdd_eq_syncBody env st h hmk hlk]
      unfold syncBody
      rw [hrd]
    exact ⟨by rw [key], by rw [key]⟩

/-- Concrete instantiation of the claim-C4 theorem: a missing file plus a
reachable remote yields the one-entry index; a permission-denied read
aborts with that error. -/
theorem repoAdd_missing_file_tolerance_witness :
    ((repoAdd okEnv .missing cHelm).result = .ok () ∧
      (repoAdd okEnv .missing cHelm).file =
        .present (.wellFormed [⟨"parseable", "https://charts.parseable.com"⟩])) ∧
    ((repoAdd readFailEnv cSt cHelm).result = .error (.readFail cErr2) ∧
      (repoAdd readFailEnv cSt cHelm).file = cSt) :=
  ⟨repoAdd_missing_file_tolerance.1 okEnv cHelm rfl rfl rfl rfl rfl rfl,
   repoAdd_missing_file_tolerance.2 readFailEnv cSt cHelm cErr2 rfl rfl rfl⟩

/-- Claim C5: during lock acquisition in repoAdd, a hard acquisition
error is returned and the sync aborts with the file untouched; when the
acquisition call returns no error, execution proceeds to the
read-modify-write sequence even if the lock was not obtained; and when
the lock was obtained (no error, locked true), the deferred unlock runs
before the function returns on every path. -/
theorem repoAdd_lock_acquisition (env : Env) (st : FileState) (h : Helm)
    (hmk : env.mkdir.isOtherErr = false) :
    (∀ e, env.lock.err = some e →
        (repoAdd env st h).result = .error (.lockFail e) ∧ (repoAdd env st h).file = st) ∧
    (env.lock.err = none → repoAdd env st h = syncBody env st h env.lock.locked) ∧
    (env.lock.err = none → env.lock.locked = true →
        (repoAdd env st h).lockReleased = true) := by
  refine ⟨?_, ?_, ?_⟩
  · intro e hlk
    unfold repoAdd
    rcases hm : env.mkdir with _ | e1 | e1
    · rw [hlk]; exact ⟨rfl, rfl⟩
    · rw [hlk]; exact ⟨rfl, rfl⟩
    · rw [hm] at hmk; simp [MkdirResult.isOtherErr] at hmk
  · intro hlk
    exact repoAdd_eq_syncBody env st h hmk hlk
  · intro hlk hlo
    rw [repoAdd_eq_syncBody env st h hmk hlk, syncBody_lockReleased, hlo]

/-- Concrete instantiation of the claim-C5 theorem: a hard lock error is
returned with the file untouched; with no lock error the call equals the
read-modify-write sequence and the obtained lock is released. -/
theorem repoAdd_lock_acquisition_witness :
    ((repoAdd lockFailEnv cSt cHelm).result = .error (.lockFail cErr2) ∧
      (repoAdd lockFailEnv cSt cHelm).file = cSt) ∧
    (repoAdd okEnv cSt cHelm = syncBody okEnv cSt cHelm true) ∧
    (repoAdd okEnv cSt cHelm).lockReleased = true :=
  ⟨(repoAdd_lock_acquisition lockFailEnv cSt cHelm rfl).1 cErr2 rfl,
   (repoAdd_lock_acquisition okEnv cSt cHelm rfl).2.1 rfl,
   (repoAdd_lock_acquisition okEnv cSt cHelm rfl).2.2 rfl rfl⟩

/-- Claim C7: when the remote index download fails, repoAdd returns an
error that wraps the underlying transport error and carries the target
repository URL in its message; the message text differs between the
existing-name case (unable to update) and the new-name case (not a valid
chart repository or cannot be reached); both error classes are distinct
from a parse failure of the index file. -/
theorem repoAdd_download_error_message (env : Env) (st : FileState) (h : Helm)
    (f : File) (e : GoErr)
    (hmk : env.mkdir.isOtherErr = false)
    (hlk : env.lock.err = none)
    (hrd : env.readErr = none)
    (hpa : yamlUnmarshal st = .ok f)
    (hnr : env.newRepoErr = none)
    (hdl : env.download h.RepoURL = some e) :
    ((File.Has f h.RepoName = true →
        (repoAdd env st h).result = .error (.updateFail h.RepoURL e)) ∧
      (File.Has f h.RepoName = false →
        (repoAdd env st h).result = .error (.unreachableFail h.RepoURL e))) ∧
    (∃ a b, (RepoAddError.updateFail h.RepoURL e).message = a ++ (h.RepoURL ++ b)) ∧
    (∃ c, (RepoAddError.updateFail h.RepoURL e).message = c ++ e.msg) ∧
    (∃ a b, (RepoAddError.unreachableFail h.RepoURL e).message = a ++ (h.RepoURL ++ b)) ∧
    (∃ c, (RepoAddError.unreachableFail h.RepoURL e).message = c ++ e.msg) ∧
    (RepoAddError.updateFail h.RepoURL e).message ≠
      (RepoAddError.unreachableFail h.RepoURL e).message ∧
    (∀ ep, RepoAddError.updateFail h.RepoURL e ≠ .parseFail ep ∧
      RepoAddError.unreachableFail h.RepoURL e ≠ .parseFail ep) := by
  refine ⟨⟨?_, ?_⟩, ?_, ?_, ?_, ?_, ?_, ?_⟩
  · intro hhas
    rw [repoAdd_eq_syncBody env st h hmk hlk]
    unfold syncBody syncParsed syncExisting
    rw [hrd, hpa]
    simp [hhas, hnr, hdl]
  · intro hhas
    rw [repoAdd_eq_syncBody env st h hmk hlk]
    unfold syncBody syncParsed syncNew
    rw [hrd, hpa]
    simp [hhas, hnr, hdl]
  · refine ⟨"looks like we are unable to update helm repo \"", "\": " ++ e.msg, ?_⟩
    apply String.ext
    simp [RepoAddError.message, goQuote, String.data_append, List.append_assoc]
  · exact ⟨"looks like we are unable to update helm repo " ++ goQuote h.RepoURL ++ ": ", rfl⟩
  · refine ⟨"looks like \"",
      "\" is not a valid chart repository or cannot be reached: " ++ e.msg, ?_⟩
    apply String.ext
    simp [RepoAddError.message, goQuote, String.data_append, List.append_assoc]
  · exact ⟨"looks like " ++ goQuote h.RepoURL ++
      " is not a valid chart repository or cannot be reached: ", rfl⟩
  · intro heq
    have hlen := congrArg String.length heq
    have l1 : ("looks like we are unable to update helm repo ").length = 45 := by decide
    have l2 : ("looks like ").length = 11 := by decide
    have l3 : (" is not a valid chart repository or cannot be reached: ").length = 55 := by decide
    have l4 : (": ").length = 2 := by decide
    have l5 : ("\"").length = 1 := by decide
    simp only [RepoAddError.message, goQuote, String.length_append, l1, l2, l3, l4, l5] at hlen
    omega
  · intro ep
    exact ⟨by simp, by simp⟩

/-- Concrete instantiation of the claim-C7 theorem: the two download
failure errors at a concrete URL and transport error, with their distinct
messages. -/
theorem repoAdd_download_error_message_witness :
    (repoAdd downFailEnv cSt cHelm).result =
        .error (.updateFail "https://charts.parseable.com" cErr) ∧
    (repoAdd downFailEnv .missing cHelm).result =
        .error (.unreachableFail "https://charts.parseable.com" cErr) ∧
    (RepoAddError.updateFail "https://charts.parseable.com" cErr).message ≠
      (RepoAddError.unreachableFail "https://charts.parseable.com" cErr).message :=
  ⟨((repoAdd_download_error_message downFailEnv cSt cHelm
      [⟨"parseable", "https://old.example.com"⟩] cErr rfl rfl rfl rfl rfl rfl).1).1 rfl,
   ((repoAdd_download_error_message downFailEnv .missing cHelm [] cErr
      rfl rfl rfl rfl rfl rfl).1).2 rfl,
   (repoAdd_download_error_message downFailEnv cSt cHelm
      [⟨"parseable", "https://old.example.com"⟩] cErr rfl rfl rfl rfl rfl rfl).2.2.2.2.2.1⟩

/-- Claim C6 counterexample: with the synchronizer failing (remote index
download unreachable for a brand-new name) and every other step
succeeding, repoAdd returns an error yet Apply and Upgrade both return
success — the synchronizer failure is not surfaced to the caller. -/
theorem apply_ignores_sync_failure :
    (repoAdd cActionEnv.sync .missing cHelm).result =
        .error (.unreachableFail "https://charts.parseable.com" cErr) ∧
    (Apply cActionEnv .missing cHelm).result = .ok () ∧
    (Upgrade cActionEnv .missing cHelm).result = .ok () :=
  ⟨rfl, rfl, rfl⟩

/-- Claim C6 amended: Apply and Upgrade invoke repoAdd before locating
the chart — the index file state they proceed with is the synchronizer's
output state — but the call at helm.go lines 97 and 316 discards its
return value, so a synchronizer failure is not surfaced: whenever
configuration init, chart location, chart load, value merge and the
action run all succeed, Apply and Upgrade return success regardless of
the synchronizer's result. -/
theorem apply_upgrade_invoke_but_ignore_sync (env : ActionEnv) (st : FileState) (h : Helm)
    (hin : env.initErr = none) :
    ((Apply env st h).file = (repoAdd env.sync st h).file ∧
      (Upgrade env st h).file = (repoAdd env.sync st h).file) ∧
    (env.locateErr = none → env.loadErr = none → env.mergeErr = none → env.runErr = none →
      (Apply env st h).result = .ok () ∧ (Upgrade env st h).result = .ok ()) := by
  unfold Apply Upgrade
  rw [hin]
  rcases env.locateErr with _ | e1 <;>
  rcases env.loadErr with _ | e2 <;>
  rcases env.mergeErr with _ | e3 <;>
  rcases env.runErr with _ | e4 <;>
  refine ⟨⟨rfl, rfl⟩, ?_⟩ <;>
  intro h1 h2 h3 h4 <;>
  first
  | exact ⟨rfl, rfl⟩
  | exact absurd h1 (Option.some_ne_none _)
  | exact absurd h2 (Option.some_ne_none _)
  | exact absurd h3 (Option.some_ne_none _)
  | exact absurd h4 (Option.some_ne_none _)

/-- Concrete instantiation of the amended claim-C6 theorem: with the
failing-sync environment, the actions proceed with the synchronizer's
file state and still return success. -/
theorem apply_upgrade_invoke_but_ignore_sync_witness :
    ((Apply cActionEnv .missing cHelm).file = (repoAdd cActionEnv.sync .missing cHelm).file ∧
      (Upgrade cActionEnv .missing cHelm).file =
        (repoAdd cActionEnv.sync .missing cHelm).file) ∧
    ((Apply cActionEnv .missing cHelm).result = .ok () ∧
      (Upgrade cActionEnv .missing cHelm).result = .ok ()) :=
  ⟨(apply_upgrade_invoke_but_ignore_sync cActionEnv .missing cHelm rfl).1,
   (apply_upgrade_invoke_but_ignore_sync cActionEnv .missing cHelm rfl).2 rfl rfl rfl rfl⟩

/-- Claim C9 counterexample: the claim says both uninstall call sites
configure the same 300-second (5-minute) wait timeout; in fact
DeleteRelease performs no configuration after action.NewUninstall, so its
action keeps the zero values — timeout 0, not 300 seconds, and wait
disabled — while Uninstall sets 5 minutes. -/
theorem uninstall_timeout_mismatch :
    uninstallClient.Timeout = 300 * timeSecond ∧
    deleteReleaseClient.Timeout = 0 ∧
    deleteReleaseClient.Timeout ≠ 300 * timeSecond ∧
    deleteReleaseClient.Wait = false := by
  refine ⟨by decide, rfl, by decide, rfl⟩

/-- Claim C9 amended: Uninstall configures its uninstall action with wait
enabled and a timeout of 5 minutes, which equals 300 seconds;
DeleteRelease configures nothing on its uninstall action, leaving the
zero values (wait disabled, timeout 0), so the two call sites do not
apply the same timeout. -/
theorem uninstall_timeout_amended :
    uninstallClient.Wait = true ∧ uninstallClient.Timeout = 5 * timeMinute ∧
    5 * timeMinute = 300 * timeSecond ∧ deleteReleaseClient = newUninstall := by
  refine ⟨rfl, rfl, by decide, rfl⟩

end helm

namespace cmd

open helm (GoErr)

/-- Claim C8: for every method, relative path and body, when joining the
profile base URL with the fixed prefix api/v1/ and the relative path
succeeds and request construction succeeds, the request built by
NewRequest has exactly that joined URL, carries basic auth with the
profile's username and password, and a Content-Type application/json
header; and the client constructed by DefaultClient applies a fixed
60-second overall request timeout. -/
theorem newRequest_shape (joinPath : JoinPathFn) (mkErr : String → String → Option GoErr)
    (client : HTTPClient) (method path : String) (body : Option String) (u : String)
    (hjp : joinPath client.Profile.URL ["api/v1/", path] = .ok u)
    (hmk : mkErr method u = none) :
    (NewRequest joinPath mkErr client method path body =
      .ok { method := method, url := u, body := body,
            basicAuth := some (client.Profile.Username, client.Profile.Password),
            headers := [("Content-Type", "application/json")] }) ∧
    (∀ p : Profile, (DefaultClient p).ClientTimeout = 60 * timeSecond) := by
  refine ⟨?_, fun p => rfl⟩
  simp [NewRequest, httpNewRequest, baseAPIURL, setBasicAuth, headerAdd, hjp, hmk]

/-- Concrete instantiation of the claim-C8 theorem at a concrete profile,
method, path and joined URL. -/
theorem newRequest_shape_witness :
    (NewRequest cJoinPath cMkErr (DefaultClient cProfile) "GET" "health" none =
      .ok { method := "GET", url := "http://localhost:8000/api/v1/health", body := none,
            basicAuth := some ("admin", "admin"),
            headers := [("Content-Type", "application/json")] }) ∧
    (DefaultClient cProfile).ClientTimeout = 60 * timeSecond :=
  ⟨(newRequest_shape cJoinPath cMkErr (DefaultClient cProfile) "GET" "health" none
      "http://localhost:8000/api/v1/health" rfl rfl).1,
   (newRequest_shape cJoinPath cMkErr (DefaultClient cProfile) "GET" "health" none
      "http://localhost:8000/api/v1/health" rfl rfl).2 cProfile⟩

/-- Claim C10: the URL construction never surfaces a join failure:
baseAPIURL discards the error from url.JoinPath, so whenever joining the
profile URL, the api/v1/ prefix and the path fails, baseAPIURL yields the
empty string and NewRequest silently builds the request against the empty
URL string, returning an error only if request construction itself
fails. -/
theorem baseAPIURL_discards_join_error (joinPath : JoinPathFn)
    (mkErr : String → String → Option GoErr) (client : HTTPClient)
    (method path : String) (body : Option String) (e : GoErr)
    (hjp : joinPath client.Profile.URL ["api/v1/", path] = .error e) :
    baseAPIURL joinPath client path = "" ∧
    (mkErr method "" = none →
      NewRequest joinPath mkErr client method path body =
        .ok { method := method, url := "", body := body,
              basicAuth := some (client.Profile.Username, client.Profile.Password),
              headers := [("Content-Type", "application/json")] }) ∧
    (∀ e2, mkErr method "" = some e2 →
      NewRequest joinPath mkErr client method path body = .error e2) := by
  have hb : baseAPIURL joinPath client path = "" := by
    unfold baseAPIURL
    rw [hjp]
  refine ⟨hb, ?_, ?_⟩
  · intro hmk
    simp [NewRequest, httpNewRequest, setBasicAuth, headerAdd, hb, hmk]
  · intro e2 hmk
    simp [NewRequest, httpNewRequest, hb, hmk]

/-- Concrete instantiation of the claim-C10 theorem: a failing join
yields the empty URL and a successfully built request against it. -/
theorem baseAPIURL_discards_join_error_witness :
    baseAPIURL cJoinPathFail (DefaultClient cProfile) "health" = "" ∧
    NewRequest cJoinPathFail cMkErr (DefaultClient cProfile) "GET" "health" none =
      .ok { method := "GET", url := "", body := none,
            basicAuth := some ("admin", "admin"),
            headers := [("Content-Type", "application/json")] } :=
  ⟨(baseAPIURL_discards_join_error cJoinPathFail cMkErr (DefaultClient cProfile)
      "GET" "health" none cErrJoin rfl).1,
   (baseAPIURL_discards_join_error cJoinPathFail cMkErr (DefaultClient cProfile)
      "GET" "health" none cErrJoin rfl).2.1 rfl⟩

end cmd
